import Mathlib

set_option maxHeartbeats 1000000

/-!
Verification development for the psqlui repository.

The definitions below are a shallow embedding of the Python sources:
Python `str` is Lean `String` (or `List Char` where positional scanning is
involved), Python tuples/lists are Lean lists, Python dicts are association
lists with dict insertion semantics (assignment replaces in place, new keys
append at the end), float scores are embedded as rationals, and fallible
code returns `Except`/`Option`.
-/

/-! ## `psqlui/sqlintel/models.py` -/

/-- Embedding of `Clause` from `sqlintel/models.py`: the SQL clause under the cursor. -/
inductive Clause where
  | ANY
  | SELECT
  | FROM
  | WHERE
  | GROUP
  | HAVING
  | ORDER
  | LIMIT
  | INSERT
  | UPDATE
  | DELETE
deriving DecidableEq

/-- Embedding of `SuggestionType` from `sqlintel/models.py`. -/
inductive SuggestionType where
  | keyword
  | identifier
  | snippet
  | function
deriving DecidableEq

/-- Embedding of `Suggestion` from `sqlintel/models.py`; the float `score` is embedded
as a rational. -/
structure Suggestion where
  label : String
  type : SuggestionType
  detail : Option String := none
  insertText : Option String := none
  score : ℚ := 0
deriving DecidableEq

/-- Embedding of `AnalysisResult` from `sqlintel/models.py`; the nullable sqlglot AST
handle is embedded as a presence flag, which is all the suggestion code
observes of it. -/
structure AnalysisResult where
  buffer : String
  cursor : Nat
  clause : Clause
  tables : List String
  columns : List String
  astPresent : Bool
  errors : List String
deriving DecidableEq

/-! ## Python dict embedding (assoc lists with insertion-order semantics) -/

/-- Python `d[k] = v`: replace in place if the key exists, else append. -/
def dictInsert {α : Type} (d : List (String × α)) (k : String) (v : α) :
    List (String × α) :=
  match d with
  | [] => [(k, v)]
  | (k₁, v₁) :: rest =>
      if k₁ = k then (k, v) :: rest else (k₁, v₁) :: dictInsert rest k v

/-- Python `d.get(k)`. -/
def dictLookup {α : Type} (d : List (String × α)) (k : String) : Option α :=
  match d with
  | [] => none
  | (k₁, v₁) :: rest => if k₁ = k then some v₁ else dictLookup rest k

/-- Python `d.setdefault(k, v)`: append only when the key is absent. -/
def dictSetdefault {α : Type} (d : List (String × α)) (k : String) (v : α) :
    List (String × α) :=
  if (dictLookup d k).isSome then d else d ++ [(k, v)]

/-! ## `psqlui/sqlintel/metadata.py` -/

/-- Embedding of `_normalize` from `sqlintel/metadata.py`: strip double quotes and
lower-case. -/
def normalizeIdent (value : String) : String :=
  String.mk ((value.data.filter (fun c => c ≠ '"')).map Char.toLower)

/-- Python `s.split(".")[-1]`. -/
def lastComponent (s : String) : String :=
  (s.splitOn ".").getLastD s

/-- Embedding of `_TableEntry` from `sqlintel/metadata.py`. -/
structure TableEntry where
  label : String
  columns : List String
deriving DecidableEq

/-- State of `StaticMetadataProvider` from `sqlintel/metadata.py`:
the two lookup indices plus the cached table list. -/
structure StaticMetadataProvider where
  tablesFull : List (String × TableEntry)
  tablesShort : List (String × TableEntry)
  tableList : List TableEntry
deriving DecidableEq

/-- Embedding of `StaticMetadataProvider.update`: clears both indices and rebuilds them
from the snapshot; `_table_list` falls back to the short index values when
the full index is empty (Python `or` on tuples). -/
def StaticMetadataProvider.update (_p : StaticMetadataProvider)
    (tables : List (String × List String)) : StaticMetadataProvider :=
  let step := fun (acc : List (String × TableEntry) × List (String × TableEntry))
      (tc : String × List String) =>
    let entry : TableEntry := ⟨tc.1, tc.2⟩
    (dictInsert acc.1 (normalizeIdent tc.1) entry,
     dictSetdefault acc.2 (normalizeIdent (lastComponent tc.1)) entry)
  let idx := tables.foldl step ([], [])
  { tablesFull := idx.1
    tablesShort := idx.2
    tableList := if idx.1.isEmpty then idx.2.map Prod.snd else idx.1.map Prod.snd }

/-- Embedding of `StaticMetadataProvider.__init__`. -/
def StaticMetadataProvider.init (tables : List (String × List String)) :
    StaticMetadataProvider :=
  StaticMetadataProvider.update ⟨[], [], []⟩ tables

/-- The clause set `{FROM, INSERT, UPDATE, DELETE}` used by
`StaticMetadataProvider.suggestions_for`. -/
def fromLikeClauses : List Clause :=
  [Clause.FROM, Clause.INSERT, Clause.UPDATE, Clause.DELETE]

/-- Embedding of `StaticMetadataProvider._targets_for_analysis`. -/
def StaticMetadataProvider.targetsForAnalysis (p : StaticMetadataProvider)
    (analysis : AnalysisResult) : List TableEntry :=
  let step := fun (acc : List TableEntry) (t : String) =>
    let entry :=
      match dictLookup p.tablesFull (normalizeIdent t) with
      | some e => some e
      | none => dictLookup p.tablesShort (normalizeIdent (lastComponent t))
    match entry with
    | some e => if acc.contains e then acc else acc ++ [e]
    | none => acc
  let tables := analysis.tables.foldl step []
  if tables.isEmpty then p.tableList else tables

/-- Embedding of `StaticMetadataProvider.suggestions_for`. -/
def StaticMetadataProvider.suggestionsFor (p : StaticMetadataProvider)
    (analysis : AnalysisResult) : List Suggestion :=
  if p.tableList.isEmpty then []
  else if fromLikeClauses.contains analysis.clause then
    p.tableList.map fun e =>
      { label := e.label, detail := some "table",
        type := SuggestionType.identifier, score := 7/10 }
  else
    (p.targetsForAnalysis analysis).flatMap fun e =>
      e.columns.map fun c =>
        { label := c, detail := some (e.label ++ " column"),
          type := SuggestionType.identifier, score := 65/100 }

/-! ## `psqlui/sqlintel/catalog.py` -/

/-- Embedding of `KeywordEntry` from `sqlintel/catalog.py`. -/
structure KeywordEntry where
  keyword : String
  detail : String
  clauses : List Clause
  weight : ℚ := 1
deriving DecidableEq

/-- Embedding of `_DEFAULT_ENTRIES` from `sqlintel/catalog.py`. -/
def defaultKeywordEntries : List KeywordEntry :=
  [⟨"SELECT", "Start a query", [Clause.ANY], 1⟩,
   ⟨"DISTINCT", "Deduplicate rows", [Clause.SELECT], 9/10⟩,
   ⟨"FROM", "Choose a table or view", [Clause.SELECT, Clause.ANY], 95/100⟩,
   ⟨"WHERE", "Filter rows", [Clause.FROM, Clause.WHERE], 92/100⟩,
   ⟨"GROUP BY", "Aggregate rows", [Clause.WHERE, Clause.GROUP], 85/100⟩,
   ⟨"HAVING", "Filter aggregates", [Clause.GROUP, Clause.HAVING], 8/10⟩,
   ⟨"ORDER BY", "Sort result set", [Clause.WHERE, Clause.ORDER, Clause.GROUP], 78/100⟩,
   ⟨"LIMIT", "Restrict row count", [Clause.ORDER, Clause.LIMIT, Clause.SELECT], 75/100⟩,
   ⟨"INSERT INTO", "Insert rows", [Clause.ANY, Clause.INSERT], 88/100⟩,
   ⟨"UPDATE", "Modify rows", [Clause.ANY, Clause.UPDATE], 82/100⟩,
   ⟨"DELETE FROM", "Remove rows", [Clause.ANY, Clause.DELETE], 82/100⟩]

/-- Embedding of `KeywordCatalog.suggestions_for`. -/
def KeywordCatalog.suggestionsFor (entries : List KeywordEntry) (clause : Clause) :
    List Suggestion :=
  (entries.filter fun e =>
      e.clauses.contains Clause.ANY || e.clauses.contains clause).map fun e =>
    { label := e.keyword, detail := some e.detail,
      type := SuggestionType.keyword, score := e.weight }

/-! ## `psqlui/sqlintel/functions.py` -/

/-- Embedding of `FunctionEntry` from `sqlintel/functions.py`. -/
structure FunctionEntry where
  name : String
  signature : String
  detail : String
  clauses : List Clause
  weight : ℚ := 6/10
deriving DecidableEq

/-- Embedding of `_DEFAULT_FUNCTIONS` from `sqlintel/functions.py`. -/
def defaultFunctionEntries : List FunctionEntry :=
  [⟨"COUNT", "COUNT(expression)", "Aggregate: number of rows/expression values",
    [Clause.SELECT, Clause.HAVING, Clause.ORDER], 72/100⟩,
   ⟨"SUM", "SUM(numeric)", "Aggregate: total of numeric column",
    [Clause.SELECT, Clause.HAVING, Clause.ORDER], 6/10⟩,
   ⟨"AVG", "AVG(numeric)", "Aggregate: average of numeric column",
    [Clause.SELECT, Clause.HAVING], 6/10⟩,
   ⟨"NOW", "NOW()", "Timestamp for current transaction",
    [Clause.SELECT, Clause.WHERE, Clause.ORDER], 65/100⟩,
   ⟨"COALESCE", "COALESCE(value, ...)", "Return first non-null argument",
    [Clause.SELECT, Clause.WHERE, Clause.ORDER], 6/10⟩,
   ⟨"LOWER", "LOWER(text)", "Lowercase text, handy for case-insensitive filters",
    [Clause.SELECT, Clause.WHERE, Clause.ORDER], 6/10⟩,
   ⟨"DATE_TRUNC", "DATE_TRUNC(\x27unit\x27, timestamp)",
    "Bucket timestamps by unit (day/week/month)",
    [Clause.SELECT, Clause.WHERE, Clause.GROUP, Clause.ORDER], 6/10⟩]

/-- Embedding of `FunctionCatalog.suggestions_for`. -/
def FunctionCatalog.suggestionsFor (entries : List FunctionEntry) (clause : Clause) :
    List Suggestion :=
  (entries.filter fun e =>
      e.clauses.contains Clause.ANY || e.clauses.contains clause).map fun e =>
    { label := e.name, detail := some e.signature,
      type := SuggestionType.function,
      insertText := some (e.name ++ "()"), score := e.weight }

/-! ## `psqlui/sqlintel/service.py`: suggestion aggregation -/

/-- The sorting relation induced by Python's
`sort(key=lambda item: (-item.score, item.label))`: higher score first,
ascending label as tie-break. -/
def suggLE (a b : Suggestion) : Prop :=
  b.score < a.score ∨ (a.score = b.score ∧ a.label ≤ b.label)

instance : DecidableRel suggLE := fun a b => by
  unfold suggLE; infer_instance

instance : IsTotal Suggestion suggLE := ⟨by
  intro a b
  rcases lt_trichotomy a.score b.score with h | h | h
  · exact Or.inr (Or.inl h)
  · rcases le_total a.label b.label with h₂ | h₂
    · exact Or.inl (Or.inr ⟨h, h₂⟩)
    · exact Or.inr (Or.inr ⟨h.symm, h₂⟩)
  · exact Or.inl (Or.inl h)⟩

instance : IsTrans Suggestion suggLE := ⟨by
  intro a b c hab hbc
  rcases hab with h | ⟨he, hl⟩
  · rcases hbc with h₂ | ⟨he₂, hl₂⟩
    · exact Or.inl (h₂.trans h)
    · exact Or.inl (he₂ ▸ h)
  · rcases hbc with h₂ | ⟨he₂, hl₂⟩
    · exact Or.inl (he ▸ h₂)
    · exact Or.inr ⟨he.trans he₂, hl.trans hl₂⟩⟩

/-- Embedding of `MAX_SUGGESTIONS` from `sqlintel/service.py`. -/
def MAX_SUGGESTIONS : Nat := 50

/-- The suggestion list built by `SqlIntelService.suggestions_from_analysis`
before sorting and truncation: keyword-catalog suggestions extended with the
metadata provider's suggestions. -/
def preSortSuggestions (p : StaticMetadataProvider) (analysis : AnalysisResult) :
    List Suggestion :=
  KeywordCatalog.suggestionsFor defaultKeywordEntries analysis.clause
    ++ p.suggestionsFor analysis

/-- Embedding of `SqlIntelService.suggestions_from_analysis`: Python's stable `sort` with
key `(-score, label)` is embedded as a stable insertion sort under `suggLE`,
followed by truncation to `MAX_SUGGESTIONS`. -/
def suggestionsFromAnalysis (p : StaticMetadataProvider)
    (analysis : AnalysisResult) : List Suggestion :=
  (List.insertionSort suggLE (preSortSuggestions p analysis)).take MAX_SUGGESTIONS

/-! ## `psqlui/sqlintel/service.py`: clause detection

Clause detection scans the upper-cased prefix with `re`; strings are
embedded as `List Char` here (ASCII model of `\w`, `str.upper` and
`str.strip`), since the code is purely positional. -/

/-- ASCII model of the regex word character class `\w`. -/
def wordChar (c : Char) : Bool := c.isAlphanum || c == '_'

/-- The whitespace characters recognised by Python's `str.strip()`
(ASCII model). -/
def pyIsSpace (c : Char) : Bool :=
  c == ' ' || c == '\t' || c == '\n' || c == '\r' || c == '\x0b' || c == '\x0c'

/-- Whole-word match (regex `\b<token>\b` as compiled by `_rfind_token`)
of `tok` at position `i` of `s`: the token text occurs at `i` and is not
flanked by word characters.  Every clause token starts and ends with a
letter, for which this is exactly the word-boundary semantics. -/
def tokenMatchAt (s tok : List Char) (i : Nat) : Bool :=
  ((s.drop i).take tok.length == tok)
    && (i == 0 || !wordChar (s.getD (i - 1) ' '))
    && !wordChar (s.getD (i + tok.length) ' ')

/-- The scan performed by `re.finditer` inside `_rfind_token`: find matches
left to right without overlap, remembering the start of the last one.
Recursion is on an explicit fuel, always called with enough fuel to reach
the end of the string. -/
def lastMatchAux (s tok : List Char) : Nat → Nat → Option Nat → Option Nat
  | 0, _, acc => acc
  | fuel + 1, p, acc =>
    if p > s.length then acc
    else if tokenMatchAt s tok p then
      lastMatchAux s tok fuel (p + max 1 tok.length) (some p)
    else lastMatchAux s tok fuel (p + 1) acc

/-- Embedding of `_rfind_token` from `sqlintel/service.py`: start of the last `finditer`
match, `-1` when there is none. -/
def rfindToken (s tok : List Char) : Int :=
  match lastMatchAux s tok (s.length + 1) 0 none with
  | some i => (i : Int)
  | none => -1

/-- Embedding of `_CLAUSE_TOKENS` from `sqlintel/service.py`, in dict insertion order,
flattened to `(clause, token)` pairs in iteration order of the nested
loops of `_detect_clause`. -/
def clausePairs : List (Clause × List Char) :=
  [(Clause.DELETE, "DELETE FROM".data),
   (Clause.DELETE, "DELETE".data),
   (Clause.UPDATE, "UPDATE".data),
   (Clause.INSERT, "INSERT INTO".data),
   (Clause.INSERT, "INSERT".data),
   (Clause.SELECT, "SELECT".data),
   (Clause.FROM, "FROM".data),
   (Clause.WHERE, "WHERE".data),
   (Clause.GROUP, "GROUP BY".data),
   (Clause.HAVING, "HAVING".data),
   (Clause.ORDER, "ORDER BY".data),
   (Clause.LIMIT, "LIMIT".data)]

/-- One step of the `_detect_clause` loop: keep the strictly rightmost
match seen so far. -/
def detectStep (search : List Char) (acc : Clause × Int) (cp : Clause × List Char) :
    Clause × Int :=
  if rfindToken search cp.2 > acc.2 then (cp.1, rfindToken search cp.2) else acc

/-- The `(last_clause, last_pos)` loop of `_detect_clause`. -/
def detectFold (search : List Char) : Clause × Int :=
  clausePairs.foldl (detectStep search) (Clause.ANY, -1)

/-- Embedding of `_detect_clause` from `sqlintel/service.py`: `search` is the upper-cased
prefix `buffer[:cursor]`; an all-whitespace prefix short-circuits to `ANY`
(`if not search.strip()`), otherwise the rightmost match wins. -/
def searchDetect (search : List Char) : Clause :=
  if search.all pyIsSpace then Clause.ANY
  else if (detectFold search).2 ≥ 0 then (detectFold search).1 else Clause.ANY

/-- Embedding of `_detect_clause(buffer, cursor)`. -/
def detectClause (buffer : List Char) (cursor : Nat) : Clause :=
  searchDetect ((buffer.take cursor).map Char.toUpper)

/-- Spec-level predicate: some token of clause `c` has a whole-word
occurrence at position `i` of `search`. -/
def clauseMatchAt (search : List Char) (c : Clause) (i : Nat) : Prop :=
  ∃ cp ∈ clausePairs, cp.1 = c ∧ tokenMatchAt search cp.2 i = true

instance (search : List Char) (c : Clause) (i : Nat) :
    Decidable (clauseMatchAt search c i) := by
  unfold clauseMatchAt; infer_instance

/-- A token is free of self-overlap: for every shift `d`, either the
character before the shifted start is a word character (so a second
whole-word match cannot start there), or the token does not equal its own
shift (no border). -/
def selfOverlapFree (tok : List Char) : Bool :=
  (List.range tok.length).all fun d =>
    d == 0 || wordChar (tok.getD (d - 1) ' ') ||
      !(tok.drop d == tok.take (tok.length - d))

/-! ## Lemmas about whole-word matching and the `finditer` scan -/

theorem tokenMatchAt_le_length {s tok : List Char} {i : Nat}
    (hne : tok ≠ []) (h : tokenMatchAt s tok i = true) :
    i + tok.length ≤ s.length := by
  unfold tokenMatchAt at h
  simp only [Bool.and_eq_true, beq_iff_eq] at h
  have hlen := congrArg List.length h.1.1
  simp only [List.length_take, List.length_drop] at hlen
  have h1 : 0 < tok.length := List.length_pos.mpr hne
  omega

theorem tokenMatchAt_char {s tok : List Char} {i k : Nat}
    (h : tokenMatchAt s tok i = true) (hk : k < tok.length) :
    s.getD (i + k) ' ' = tok.getD k ' ' := by
  have hne : tok ≠ [] := by
    intro h0
    rw [h0] at hk
    simp at hk
  have hle := tokenMatchAt_le_length hne h
  unfold tokenMatchAt at h
  simp only [Bool.and_eq_true, beq_iff_eq] at h
  have heq := h.1.1
  have hk2 : i + k < s.length := by omega
  have hk3 : k < ((s.drop i).take tok.length).length := by
    simp only [List.length_take, List.length_drop]
    omega
  rw [List.getD_eq_getElem s ' ' hk2, List.getD_eq_getElem tok ' ' hk]
  have h2 : ((s.drop i).take tok.length)[k] = tok[k] := by
    simp only [heq]
  rw [← h2, List.getElem_take, List.getElem_drop]

theorem tokenMatchAt_boundary {s tok : List Char} {i : Nat}
    (h : tokenMatchAt s tok i = true) (hi : i ≠ 0) :
    wordChar (s.getD (i - 1) ' ') = false := by
  unfold tokenMatchAt at h
  simp only [Bool.and_eq_true, Bool.or_eq_true, beq_iff_eq, Bool.not_eq_true'] at h
  rcases h.1.2 with h1 | h1
  · exact absurd h1 hi
  · exact h1

theorem no_close_match {s tok : List Char} (hso : selfOverlapFree tok = true)
    {i j : Nat} (hij : i < j) (hj : j < i + tok.length)
    (hi : tokenMatchAt s tok i = true) (hjm : tokenMatchAt s tok j = true) :
    False := by
  set d := j - i with hd
  have hdlt : d < tok.length := by omega
  have hd0 : d ≠ 0 := by omega
  have hall := List.all_eq_true.mp hso d (List.mem_range.mpr hdlt)
  simp only [Bool.or_eq_true, beq_iff_eq, Bool.not_eq_true', beq_eq_false_iff_ne,
    ne_eq] at hall
  rcases hall with (hz | hw) | hb
  · exact hd0 hz
  · have hc := tokenMatchAt_char hi (show d - 1 < tok.length by omega)
    have hrw : i + (d - 1) = j - 1 := by omega
    rw [hrw] at hc
    have hbd := tokenMatchAt_boundary hjm (by omega)
    rw [hc, hw] at hbd
    exact absurd hbd (by simp)
  · apply hb
    have hlen1 : (tok.drop d).length = tok.length - d := List.length_drop d tok
    have hlen2 : (tok.take (tok.length - d)).length = tok.length - d := by
      simp [List.length_take]
    apply List.ext_getElem (by omega)
    intro k hk1 hk2
    have hkd : k < tok.length - d := by omega
    have hdk : d + k < tok.length := by omega
    have hkt : k < tok.length := by omega
    have h1 : (tok.drop d)[k] = tok[d + k] := List.getElem_drop tok
    have h2 : (tok.take (tok.length - d))[k] = tok[k] :=
      List.getElem_take tok
    rw [h1, h2]
    have hc1 := tokenMatchAt_char hi (show d + k < tok.length by omega)
    have hc2 := tokenMatchAt_char hjm (show k < tok.length by omega)
    have hrw : i + (d + k) = j + k := by omega
    rw [hrw] at hc1
    rw [hc2] at hc1
    rw [List.getD_eq_getElem tok ' ' (show d + k < tok.length by omega)] at hc1
    rw [List.getD_eq_getElem tok ' ' (show k < tok.length by omega)] at hc1
    exact hc1.symm

theorem pyIsSpace_not_alpha {c : Char} (h : pyIsSpace c = true) :
    c.isAlpha = false := by
  unfold pyIsSpace at h
  simp only [Bool.or_eq_true, beq_iff_eq] at h
  rcases h with ((((rfl | rfl) | rfl) | rfl) | rfl) | rfl <;> decide

theorem ws_no_match {s tok : List Char} {i : Nat}
    (hs : s.all pyIsSpace = true) (hne : tok ≠ [])
    (hhead : (tok.headD ' ').isAlpha = true) :
    tokenMatchAt s tok i = false := by
  by_contra hcon
  rw [Bool.not_eq_false] at hcon
  have hlen0 : 0 < tok.length := List.length_pos.mpr hne
  have hc := tokenMatchAt_char hcon hlen0
  have hle := tokenMatchAt_le_length hne hcon
  have hi : i < s.length := by omega
  rw [Nat.add_zero] at hc
  have hmem : s.getD i ' ' ∈ s := by
    rw [List.getD_eq_getElem s ' ' hi]
    exact List.getElem_mem hi
  have hsp := List.all_eq_true.mp hs _ hmem
  have halpha : (s.getD i ' ').isAlpha = false := pyIsSpace_not_alpha hsp
  have hhd : tok.getD 0 ' ' = tok.headD ' ' := by
    cases tok with
    | nil => exact absurd rfl hne
    | cons a l => rfl
  rw [hc, hhd, hhead] at halpha
  exact absurd halpha (by simp)

theorem lastMatchAux_none {s tok : List Char} (hne : tok ≠ []) :
    ∀ fuel p acc, s.length + 1 ≤ fuel + p →
      lastMatchAux s tok fuel p acc = none →
      acc = none ∧ ∀ j, p ≤ j → tokenMatchAt s tok j = false := by
  have hlen0 : 0 < tok.length := List.length_pos.mpr hne
  intro fuel
  induction fuel with
  | zero =>
    intro p acc hf hr
    refine ⟨hr, fun j hj => ?_⟩
    by_contra hm
    rw [Bool.not_eq_false] at hm
    have := tokenMatchAt_le_length hne hm
    omega
  | succ fuel ih =>
    intro p acc hf hr
    unfold lastMatchAux at hr
    by_cases hp : p > s.length
    · rw [if_pos hp] at hr
      refine ⟨hr, fun j hj => ?_⟩
      by_contra hm
      rw [Bool.not_eq_false] at hm
      have := tokenMatchAt_le_length hne hm
      omega
    · rw [if_neg hp] at hr
      by_cases hm : tokenMatchAt s tok p = true
      · rw [if_pos hm] at hr
        have hmax : 1 ≤ max 1 tok.length := le_max_left _ _
        have h1 := (ih _ _ (by omega) hr).1
        exact absurd h1 (by simp)
      · rw [if_neg hm] at hr
        obtain ⟨h1, h2⟩ := ih _ _ (by omega) hr
        refine ⟨h1, fun j hj => ?_⟩
        rcases Nat.eq_or_lt_of_le hj with rfl | hlt
        · exact Bool.not_eq_true _ ▸ (by simpa using hm)
        · exact h2 j hlt

theorem lastMatchAux_some {s tok : List Char} (hne : tok ≠ [])
    (hso : selfOverlapFree tok = true) :
    ∀ fuel p acc i, s.length + 1 ≤ fuel + p →
      lastMatchAux s tok fuel p acc = some i →
      (acc = some i ∧ ∀ j, p ≤ j → tokenMatchAt s tok j = false) ∨
      (p ≤ i ∧ tokenMatchAt s tok i = true ∧
        ∀ j, p ≤ j → tokenMatchAt s tok j = true → j ≤ i) := by
  have hlen0 : 0 < tok.length := List.length_pos.mpr hne
  have hmaxeq : max 1 tok.length = tok.length := Nat.max_eq_right hlen0
  intro fuel
  induction fuel with
  | zero =>
    intro p acc i hf hr
    left
    refine ⟨hr, fun j hj => ?_⟩
    by_contra hm
    rw [Bool.not_eq_false] at hm
    have := tokenMatchAt_le_length hne hm
    omega
  | succ fuel ih =>
    intro p acc i hf hr
    unfold lastMatchAux at hr
    by_cases hp : p > s.length
    · rw [if_pos hp] at hr
      left
      refine ⟨hr, fun j hj => ?_⟩
      by_contra hm
      rw [Bool.not_eq_false] at hm
      have := tokenMatchAt_le_length hne hm
      omega
    · rw [if_neg hp] at hr
      by_cases hm : tokenMatchAt s tok p = true
      · rw [if_pos hm] at hr
        have hmax : 1 ≤ max 1 tok.length := le_max_left _ _
        rcases ih _ _ _ (by omega) hr with ⟨h1, h2⟩ | ⟨h1, h2, h3⟩
        · have hip : i = p := by
            have := Option.some.inj h1
            omega
          subst hip
          right
          refine ⟨le_refl _, hm, fun j hj hjm => ?_⟩
          by_contra hgt
          push_neg at hgt
          rcases Nat.lt_or_ge j (i + max 1 tok.length) with hlt | hge
          · rw [hmaxeq] at hlt
            exact no_close_match hso hgt hlt hm hjm
          · have := h2 j (by omega)
            rw [hjm] at this
            exact absurd this (by simp)
        · right
          refine ⟨by omega, h2, fun j hj hjm => ?_⟩
          rcases Nat.lt_or_ge j (p + max 1 tok.length) with hlt | hge
          · omega
          · exact h3 j hge hjm
      · rw [if_neg hm] at hr
        rcases ih _ _ _ (by omega) hr with ⟨h1, h2⟩ | ⟨h1, h2, h3⟩
        · left
          refine ⟨h1, fun j hj => ?_⟩
          rcases Nat.eq_or_lt_of_le hj with rfl | hlt
          · simpa using hm
          · exact h2 j hlt
        · right
          refine ⟨by omega, h2, fun j hj hjm => ?_⟩
          rcases Nat.eq_or_lt_of_le hj with rfl | hlt
          · exact absurd hjm hm
          · exact h3 j hlt hjm

theorem rfindToken_neg {s tok : List Char} (hne : tok ≠ [])
    (h : rfindToken s tok < 0) :
    ∀ j, tokenMatchAt s tok j = false := by
  unfold rfindToken at h
  cases hr : lastMatchAux s tok (s.length + 1) 0 none with
  | some i => rw [hr] at h; exact absurd h (by simp)
  | none =>
    intro j
    exact (lastMatchAux_none hne (s.length + 1) 0 none (by omega) hr).2 j (Nat.zero_le j)

theorem rfindToken_some {s tok : List Char} (hne : tok ≠ [])
    (hso : selfOverlapFree tok = true) {i : Nat}
    (h : rfindToken s tok = (i : Int)) :
    tokenMatchAt s tok i = true ∧ ∀ j, tokenMatchAt s tok j = true → j ≤ i := by
  unfold rfindToken at h
  cases hr : lastMatchAux s tok (s.length + 1) 0 none with
  | none =>
    rw [hr] at h
    have h2 : (-1 : Int) = (i : Int) := h
    exact absurd h2 (by omega)
  | some i₂ =>
    rw [hr] at h
    have h2 : ((i₂ : Nat) : Int) = (i : Int) := h
    have hi : i₂ = i := by exact_mod_cast h2
    subst hi
    rcases lastMatchAux_some hne hso (s.length + 1) 0 none i₂ (by omega) hr with
      ⟨h1, _⟩ | ⟨_, h2, h3⟩
    · exact absurd h1 (by simp)
    · exact ⟨h2, fun j hj => h3 j (Nat.zero_le j) hj⟩

/-! ## Lemmas about the `_detect_clause` fold -/

theorem detectStep_snd_le (search : List Char) (acc : Clause × Int)
    (cp : Clause × List Char) : acc.2 ≤ (detectStep search acc cp).2 := by
  simp only [detectStep]
  split
  · omega
  · exact le_refl _

theorem foldl_detectStep_acc_le (search : List Char) :
    ∀ (l : List (Clause × List Char)) (acc : Clause × Int),
      acc.2 ≤ (l.foldl (detectStep search) acc).2 := by
  intro l
  induction l with
  | nil => intro acc; exact le_refl _
  | cons cp l ih =>
    intro acc
    exact le_trans (detectStep_snd_le search acc cp) (ih _)

theorem foldl_detectStep_ge (search : List Char) :
    ∀ (l : List (Clause × List Char)) (acc : Clause × Int),
      ∀ cp ∈ l, rfindToken search cp.2 ≤ (l.foldl (detectStep search) acc).2 := by
  intro l
  induction l with
  | nil => intro acc cp h; exact absurd h (List.not_mem_nil cp)
  | cons cp₁ l ih =>
    intro acc cp h
    rcases List.mem_cons.mp h with rfl | h2
    · refine le_trans ?_ (foldl_detectStep_acc_le search l (detectStep search acc cp))
      simp only [detectStep]
      split
      · exact le_refl _
      · omega
    · exact ih _ cp h2

theorem foldl_detectStep_cases (search : List Char) :
    ∀ (l : List (Clause × List Char)) (acc : Clause × Int),
      l.foldl (detectStep search) acc = acc ∨
        ∃ cp ∈ l, l.foldl (detectStep search) acc =
          (cp.1, rfindToken search cp.2) := by
  intro l
  induction l with
  | nil => intro acc; exact Or.inl rfl
  | cons cp₁ l ih =>
    intro acc
    rcases ih (detectStep search acc cp₁) with h | ⟨cp, hmem, heq⟩
    · rw [List.foldl_cons, h]
      unfold detectStep
      split
      · exact Or.inr ⟨cp₁, List.mem_cons_self cp₁ l, rfl⟩
      · exact Or.inl rfl
    · exact Or.inr ⟨cp, List.mem_cons_of_mem cp₁ hmem, heq⟩

/-- Every clause token is nonempty, free of self-overlap, and starts with a
letter; checked by evaluation over the fixed table. -/
theorem clausePairs_facts :
    ∀ cp ∈ clausePairs, cp.2 ≠ [] ∧ selfOverlapFree cp.2 = true ∧
      (cp.2.headD ' ').isAlpha = true := by decide

theorem searchDetect_spec (search : List Char) :
    ((∀ c i, ¬ clauseMatchAt search c i) ∧ searchDetect search = Clause.ANY) ∨
    (∃ i, clauseMatchAt search (searchDetect search) i ∧
      ∀ c j, clauseMatchAt search c j → j ≤ i) := by
  by_cases hws : search.all pyIsSpace = true
  · left
    constructor
    · intro c i hm
      obtain ⟨cp, hcp, _, hm2⟩ := hm
      obtain ⟨hne, _, hhead⟩ := clausePairs_facts cp hcp
      rw [ws_no_match hws hne hhead] at hm2
      exact absurd hm2 (by simp)
    · simp [searchDetect, hws]
  · by_cases hex : ∃ c i, clauseMatchAt search c i
    · right
      obtain ⟨c₀, i₀, cp₀, hcp₀, hceq, hm₀⟩ := hex
      obtain ⟨hne₀, hso₀, _⟩ := clausePairs_facts cp₀ hcp₀
      have hr0 : (0 : Int) ≤ rfindToken search cp₀.2 := by
        by_contra hlt
        push_neg at hlt
        rw [rfindToken_neg hne₀ hlt i₀] at hm₀
        exact absurd hm₀ (by simp)
      have hge := foldl_detectStep_ge search clausePairs (Clause.ANY, -1) cp₀ hcp₀
      have hr2 : (0 : Int) ≤ (detectFold search).2 := le_trans hr0 hge
      rcases foldl_detectStep_cases search clausePairs (Clause.ANY, -1) with hacc | ⟨cp, hcp, heq⟩
      · have hacc2 : detectFold search = (Clause.ANY, -1) := hacc
        rw [hacc2] at hr2
        exact absurd hr2 (by norm_num)
      · have heqf : detectFold search = (cp.1, rfindToken search cp.2) := heq
        obtain ⟨hne, hso, _⟩ := clausePairs_facts cp hcp
        have hr2n : (0 : Int) ≤ rfindToken search cp.2 := by
          rw [heqf] at hr2
          exact hr2
        have hri : rfindToken search cp.2 = ((rfindToken search cp.2).toNat : Int) :=
          (Int.toNat_of_nonneg hr2n).symm
        obtain ⟨hmi, hmax⟩ := rfindToken_some hne hso hri
        have hdet : searchDetect search = cp.1 := by
          unfold searchDetect
          rw [if_neg hws, if_pos (by rw [heqf]; exact hr2n), heqf]
        refine ⟨(rfindToken search cp.2).toNat, ?_, ?_⟩
        · rw [hdet]
          exact ⟨cp, hcp, rfl, hmi⟩
        · intro c j hm
          obtain ⟨cp₂, hcp₂, _, hm₂⟩ := hm
          obtain ⟨hne₂, hso₂, _⟩ := clausePairs_facts cp₂ hcp₂
          have hr₂ : (0 : Int) ≤ rfindToken search cp₂.2 := by
            by_contra hlt
            push_neg at hlt
            rw [rfindToken_neg hne₂ hlt j] at hm₂
            exact absurd hm₂ (by simp)
          have hri₂ : rfindToken search cp₂.2 = ((rfindToken search cp₂.2).toNat : Int) :=
            (Int.toNat_of_nonneg hr₂).symm
          obtain ⟨_, hmax₂⟩ := rfindToken_some hne₂ hso₂ hri₂
          have hj := hmax₂ j hm₂
          have hle2 := foldl_detectStep_ge search clausePairs (Clause.ANY, -1) cp₂ hcp₂
          have hle3 : rfindToken search cp₂.2 ≤ rfindToken search cp.2 := by
            have hle2b : rfindToken search cp₂.2 ≤ (detectFold search).2 := hle2
            rw [heqf] at hle2b
            exact hle2b
          omega
    · left
      push_neg at hex
      refine ⟨hex, ?_⟩
      have hr2 : (detectFold search).2 < 0 := by
        by_contra hge
        push_neg at hge
        rcases foldl_detectStep_cases search clausePairs (Clause.ANY, -1) with hacc | ⟨cp, hcp, heq⟩
        · have hacc2 : detectFold search = (Clause.ANY, -1) := hacc
          rw [hacc2] at hge
          exact absurd hge (by norm_num)
        · have heqf : detectFold search = (cp.1, rfindToken search cp.2) := heq
          obtain ⟨hne, hso, _⟩ := clausePairs_facts cp hcp
          have hr2n : (0 : Int) ≤ rfindToken search cp.2 := by
            rw [heqf] at hge
            exact hge
          have hri : rfindToken search cp.2 = ((rfindToken search cp.2).toNat : Int) :=
            (Int.toNat_of_nonneg hr2n).symm
          obtain ⟨hmi, _⟩ := rfindToken_some hne hso hri
          exact hex cp.1 (rfindToken search cp.2).toNat ⟨cp, hcp, rfl, hmi⟩
      unfold searchDetect
      rw [if_neg hws, if_neg (by omega)]

/-- C8: for every buffer and cursor, clause detection scans the upper-cased
prefix `buffer[:cursor]` for whole-word occurrences of the clause keywords of
the fixed table and returns the clause of the rightmost match; an empty or
all-whitespace prefix, or a prefix with no match, yields `ANY`.  In
particular it returns `WHERE` for `"SELECT * FROM accounts WHERE id = "` at
end of buffer, `ANY` for `("", 0)`, and `SELECT` for `("SELECT ", 7)`. -/
theorem claim_C8_clause_detection :
    (∀ (buffer : List Char) (cursor : Nat),
      ((∀ c i, ¬ clauseMatchAt ((buffer.take cursor).map Char.toUpper) c i) ∧
        detectClause buffer cursor = Clause.ANY) ∨
      (∃ i, clauseMatchAt ((buffer.take cursor).map Char.toUpper)
          (detectClause buffer cursor) i ∧
        ∀ c j, clauseMatchAt ((buffer.take cursor).map Char.toUpper) c j → j ≤ i)) ∧
    detectClause "SELECT * FROM accounts WHERE id = ".data 34 = Clause.WHERE ∧
    detectClause "".data 0 = Clause.ANY ∧
    detectClause "SELECT ".data 7 = Clause.SELECT := by
  refine ⟨?_, by decide, by decide, by decide⟩
  intro buffer cursor
  exact searchDetect_spec ((buffer.take cursor).map Char.toUpper)

/-- C7: every suggestion list returned by `suggestionsFromAnalysis` is sorted
by descending score with ascending label as tie-break (the ordering key
`(-score, label)` ascending) and has length at most 50. -/
theorem claim_C7_suggestion_order_and_cap :
    ∀ (p : StaticMetadataProvider) (analysis : AnalysisResult),
      (suggestionsFromAnalysis p analysis).Sorted suggLE ∧
      (suggestionsFromAnalysis p analysis).length ≤ 50 ∧
      (∀ a b : Suggestion, suggLE a b ↔
        (-a.score < -b.score ∨ (-a.score = -b.score ∧ a.label ≤ b.label))) := by
  intro p analysis
  refine ⟨?_, ?_, ?_⟩
  · unfold suggestionsFromAnalysis
    exact List.Pairwise.sublist (List.take_sublist _ _)
      (List.sorted_insertionSort suggLE (preSortSuggestions p analysis))
  · unfold suggestionsFromAnalysis MAX_SUGGESTIONS
    exact List.length_take_le _ _

  · intro a b
    simp only [suggLE, neg_lt_neg_iff, neg_inj]

/-! ## C6: composition of `suggestions_from_analysis` -/

/-- The pre-sort suggestion set as the spec claims it: keyword catalog,
function catalog, and identifier provider, each filtered by clause.
(Stated from the spec for comparison with `preSortSuggestions`, which is
the set the code actually builds.) -/
def claimedPreSortSuggestions (p : StaticMetadataProvider)
    (analysis : AnalysisResult) : List Suggestion :=
  KeywordCatalog.suggestionsFor defaultKeywordEntries analysis.clause
    ++ FunctionCatalog.suggestionsFor defaultFunctionEntries analysis.clause
    ++ p.suggestionsFor analysis

/-- A SELECT-clause analysis over an empty metadata catalog. -/
def analysisSelect : AnalysisResult :=
  { buffer := "SELECT ", cursor := 7, clause := Clause.SELECT,
    tables := [], columns := [], astPresent := true, errors := [] }

/-- The provider with no metadata pushed yet. -/
def emptyProvider : StaticMetadataProvider := StaticMetadataProvider.init []

/-- C6 counterexample: with the SELECT clause, the union claimed by the spec
contains the function-catalog entry `COUNT`, but the set actually built by
`suggestions_from_analysis` (which never consults the function catalog) does
not, so the two label multisets differ. -/
theorem claim_C6_counterexample :
    ((claimedPreSortSuggestions emptyProvider analysisSelect).map
        Suggestion.label).contains "COUNT" = true ∧
    ((preSortSuggestions emptyProvider analysisSelect).map
        Suggestion.label).contains "COUNT" = false ∧
    ¬ List.Perm
        ((preSortSuggestions emptyProvider analysisSelect).map Suggestion.label)
        ((claimedPreSortSuggestions emptyProvider analysisSelect).map
          Suggestion.label) := by decide

theorem suggestionsFor_type_identifier (p : StaticMetadataProvider)
    (analysis : AnalysisResult) :
    ∀ s ∈ p.suggestionsFor analysis, s.type = SuggestionType.identifier := by
  intro s hs
  unfold StaticMetadataProvider.suggestionsFor at hs
  split at hs
  · exact absurd hs (List.not_mem_nil s)
  · split at hs
    · obtain ⟨e, _, rfl⟩ := List.mem_map.mp hs
      rfl
    · obtain ⟨e, _, hmem⟩ := List.mem_flatMap.mp hs
      obtain ⟨c, _, rfl⟩ := List.mem_map.mp hmem
      rfl

/-- C6 amended: the set of suggestions produced by
`suggestions_from_analysis` before sorting and truncation is the union of
the keyword-catalog entries filtered by clause and the identifier provider's
suggestions only; the function catalog (and snippet catalog) are never
consulted, so every produced suggestion is of keyword or identifier type. -/
theorem claim_C6_amended :
    ∀ (p : StaticMetadataProvider) (analysis : AnalysisResult),
      preSortSuggestions p analysis =
        KeywordCatalog.suggestionsFor defaultKeywordEntries analysis.clause
          ++ p.suggestionsFor analysis ∧
      ∀ s ∈ preSortSuggestions p analysis,
        s.type = SuggestionType.keyword ∨ s.type = SuggestionType.identifier := by
  intro p analysis
  refine ⟨rfl, ?_⟩
  intro s hs
  rcases List.mem_append.mp hs with h | h
  · left
    obtain ⟨e, _, rfl⟩ := List.mem_map.mp h
    rfl
  · right
    exact suggestionsFor_type_identifier p analysis s h

/-! ## C9: metadata round-trip through the identifier provider -/

theorem dictInsert_append {α : Type} (d : List (String × α)) (k : String) (v : α)
    (h : ∀ kv ∈ d, kv.1 ≠ k) : dictInsert d k v = d ++ [(k, v)] := by
  induction d with
  | nil => rfl
  | cons kv rest ih =>
    obtain ⟨k₁, v₁⟩ := kv
    unfold dictInsert
    rw [if_neg (h (k₁, v₁) (List.mem_cons_self _ rest))]
    rw [ih fun kv₂ h₂ => h kv₂ (List.mem_cons_of_mem _ h₂)]
    rfl

theorem dictLookup_of_mem {α : Type} (l : List (String × α))
    (hnodup : (l.map Prod.fst).Nodup) (k : String) (v : α)
    (h : (k, v) ∈ l) : dictLookup l k = some v := by
  induction l with
  | nil => exact absurd h (List.not_mem_nil _)
  | cons kv rest ih =>
    obtain ⟨k₁, v₁⟩ := kv
    rcases List.mem_cons.mp h with heq | hmem
    · obtain ⟨rfl, rfl⟩ := Prod.mk.injEq .. ▸ heq
      unfold dictLookup
      rw [if_pos rfl]
    · unfold dictLookup
      have hk : k₁ ≠ k := by
        intro hk
        subst hk
        have : k₁ ∈ rest.map Prod.fst :=
          List.mem_map.mpr ⟨(k₁, v), hmem, rfl⟩
        exact (List.nodup_cons.mp hnodup).1 this
      rw [if_neg hk]
      exact ih (List.nodup_cons.mp hnodup).2 hmem

theorem foldl_fst_only (T : List (String × List String)) :
    ∀ acc : List (String × TableEntry) × List (String × TableEntry),
      (T.foldl (fun acc tc =>
        (dictInsert acc.1 (normalizeIdent tc.1) ⟨tc.1, tc.2⟩,
         dictSetdefault acc.2 (normalizeIdent (lastComponent tc.1)) ⟨tc.1, tc.2⟩))
          acc).1 =
        T.foldl (fun a tc => dictInsert a (normalizeIdent tc.1) ⟨tc.1, tc.2⟩) acc.1 := by
  induction T with
  | nil => intro acc; rfl
  | cons tc T ih =>
    intro acc
    rw [List.foldl_cons, List.foldl_cons]
    exact ih _

theorem foldl_dictInsert_fresh :
    ∀ (T : List (String × List String)) (acc : List (String × TableEntry)),
      (T.map fun tc => normalizeIdent tc.1).Nodup →
      (∀ tc ∈ T, ∀ kv ∈ acc, kv.1 ≠ normalizeIdent tc.1) →
      T.foldl (fun a tc => dictInsert a (normalizeIdent tc.1) ⟨tc.1, tc.2⟩) acc =
        acc ++ T.map fun tc => (normalizeIdent tc.1, (⟨tc.1, tc.2⟩ : TableEntry)) := by
  intro T
  induction T with
  | nil => intro acc _ _; simp
  | cons tc T ih =>
    intro acc hnodup hfresh
    rw [List.foldl_cons]
    rw [dictInsert_append acc (normalizeIdent tc.1) ⟨tc.1, tc.2⟩
      fun kv hkv => hfresh tc (List.mem_cons_self tc T) kv hkv]
    have hfresh₂ : ∀ tc₂ ∈ T,
        ∀ kv ∈ acc ++ [(normalizeIdent tc.1, (⟨tc.1, tc.2⟩ : TableEntry))],
          kv.1 ≠ normalizeIdent tc₂.1 := by
      intro tc₂ htc₂ kv hkv
      rcases List.mem_append.mp hkv with h | h
      · exact hfresh tc₂ (List.mem_cons_of_mem tc htc₂) kv h
      · have hkv2 : kv = (normalizeIdent tc.1, (⟨tc.1, tc.2⟩ : TableEntry)) := by
          simpa using h
        subst hkv2
        intro hcon
        have hcon2 : normalizeIdent tc.1 = normalizeIdent tc₂.1 := hcon
        have hmem : normalizeIdent tc.1 ∈ T.map fun t => normalizeIdent t.1 := by
          rw [hcon2]
          exact List.mem_map.mpr ⟨tc₂, htc₂, rfl⟩
        exact (List.nodup_cons.mp (by simpa using hnodup)).1 hmem
    rw [ih (acc ++ [(normalizeIdent tc.1, (⟨tc.1, tc.2⟩ : TableEntry))])
      (List.nodup_cons.mp (by simpa using hnodup)).2 hfresh₂]
    simp

theorem update_tablesFull (p : StaticMetadataProvider)
    (T : List (String × List String))
    (hnodup : (T.map fun tc => normalizeIdent tc.1).Nodup) :
    (p.update T).tablesFull =
      T.map fun tc => (normalizeIdent tc.1, (⟨tc.1, tc.2⟩ : TableEntry)) := by
  have hgoal : (p.update T).tablesFull =
      (T.foldl (fun (acc : List (String × TableEntry) × List (String × TableEntry)) tc =>
        (dictInsert acc.1 (normalizeIdent tc.1) ⟨tc.1, tc.2⟩,
         dictSetdefault acc.2 (normalizeIdent (lastComponent tc.1)) ⟨tc.1, tc.2⟩))
          ([], [])).1 := rfl
  rw [hgoal, foldl_fst_only]
  exact foldl_dictInsert_fresh T [] hnodup
    fun tc _ kv hkv => absurd hkv (List.not_mem_nil kv)

theorem update_tableList_eq (p : StaticMetadataProvider)
    (T : List (String × List String)) :
    (p.update T).tableList =
      if (p.update T).tablesFull.isEmpty
      then (p.update T).tablesShort.map Prod.snd
      else (p.update T).tablesFull.map Prod.snd := rfl

/-- A metadata snapshot whose two table names collide after normalization
(quote-stripping and lower-casing). -/
def tablesCollide : List (String × List String) := [("A", ["x"]), ("a", ["y"])]

/-- An analysis whose detected clause is FROM. -/
def analysisFrom : AnalysisResult :=
  { buffer := "", cursor := 0, clause := Clause.FROM,
    tables := [], columns := [], astPresent := false, errors := [] }

/-- C9 counterexample: for the non-empty snapshot `[("A", ...), ("a", ...)]`
the second table overwrites the first in the full-name index (both normalize
to `"a"`), so the FROM suggestions list one table, not the two names of the
snapshot: the claim fails without a no-collision hypothesis. -/
theorem claim_C9_counterexample :
    tablesCollide ≠ [] ∧
    ¬ List.Perm
      (((emptyProvider.update tablesCollide).suggestionsFor analysisFrom).map
        Suggestion.label)
      (tablesCollide.map Prod.fst) := by decide

/-- C9 amended: for every non-empty metadata snapshot `T` whose table names
are pairwise distinct after normalization, `update(T)` followed by
`suggestions_for` with clause FROM returns exactly the table names of `T` in
order, each exactly once; and for every table of `T`, a non-FROM-like
analysis referencing that table yields exactly its columns in declared
order. -/
theorem claim_C9_amended (p : StaticMetadataProvider)
    (T : List (String × List String)) (hT : T ≠ [])
    (hnodup : (T.map fun tc => normalizeIdent tc.1).Nodup) :
    (T.map Prod.fst).Nodup ∧
    (∀ a : AnalysisResult, a.clause = Clause.FROM →
      ((p.update T).suggestionsFor a).map Suggestion.label = T.map Prod.fst) ∧
    (∀ tc ∈ T, ∀ a : AnalysisResult,
      fromLikeClauses.contains a.clause = false → a.tables = [tc.1] →
      ((p.update T).suggestionsFor a).map Suggestion.label = tc.2) := by
  have hfull := update_tablesFull p T hnodup
  have htl : (p.update T).tableList =
      T.map fun tc => (⟨tc.1, tc.2⟩ : TableEntry) := by
    rw [update_tableList_eq, hfull]
    have hne : (T.map fun tc =>
        (normalizeIdent tc.1, (⟨tc.1, tc.2⟩ : TableEntry))).isEmpty = false := by
      cases T with
      | nil => exact absurd rfl hT
      | cons a l => rfl
    rw [hne]
    simp [List.map_map]
  have h1 : ((p.update T).tableList).isEmpty = false := by
    rw [htl]
    cases T with
    | nil => exact absurd rfl hT
    | cons a l => rfl
  refine ⟨?_, ?_, ?_⟩
  · have h2 := hnodup
    rw [show (fun tc : String × List String => normalizeIdent tc.1) =
      normalizeIdent ∘ Prod.fst from rfl, ← List.map_map] at h2
    exact h2.of_map
  · intro a ha
    have h2 : fromLikeClauses.contains a.clause = true := by
      rw [ha]; decide
    unfold StaticMetadataProvider.suggestionsFor
    rw [h1, h2]
    simp only [Bool.false_eq_true, if_false, if_true]
    rw [htl]
    simp [List.map_map]
  · intro tc htc a hclause htables
    have hlook : dictLookup (p.update T).tablesFull (normalizeIdent tc.1) =
        some ⟨tc.1, tc.2⟩ := by
      rw [hfull]
      apply dictLookup_of_mem
      · rw [List.map_map]
        exact hnodup
      · exact List.mem_map.mpr ⟨tc, htc, rfl⟩
    have htargets : (p.update T).targetsForAnalysis a = [⟨tc.1, tc.2⟩] := by
      unfold StaticMetadataProvider.targetsForAnalysis
      rw [htables]
      simp only [List.foldl_cons, List.foldl_nil]
      rw [hlook]
      simp
    unfold StaticMetadataProvider.suggestionsFor
    rw [h1, hclause]
    simp only [Bool.false_eq_true, if_false]
    rw [htargets]
    simp only [List.flatMap_cons, List.flatMap_nil, List.append_nil, List.map_map]
    show List.map id tc.2 = tc.2
    exact List.map_id tc.2

/-- A two-table snapshot with distinct normalized names. -/
def tablesDemo : List (String × List String) :=
  [("public.accounts", ["id", "email"]), ("public.orders", ["id", "total"])]

/-- Witness instantiating the amended C9 statement at a concrete
snapshot. -/
theorem claim_C9_amended_witness :
    tablesDemo ≠ [] ∧
    (tablesDemo.map fun tc => normalizeIdent tc.1).Nodup ∧
    ((tablesDemo.map Prod.fst).Nodup ∧
     (∀ a : AnalysisResult, a.clause = Clause.FROM →
       ((emptyProvider.update tablesDemo).suggestionsFor a).map Suggestion.label =
         tablesDemo.map Prod.fst) ∧
     (∀ tc ∈ tablesDemo, ∀ a : AnalysisResult,
       fromLikeClauses.contains a.clause = false → a.tables = [tc.1] →
       ((emptyProvider.update tablesDemo).suggestionsFor a).map Suggestion.label =
         tc.2)) :=
  ⟨by decide, by decide,
   claim_C9_amended emptyProvider tablesDemo (by decide) (by decide)⟩

/-! ## `psqlui/session.py` and `psqlui/connections.py`: the session layer

The session manager holds exactly two backend objects (primary and
fallback); Python `is`-identity over them is embedded as the two-valued
`BackendId`.  Backend behaviour is embedded as response functions carried by
the manager; emission of events to subscribed listeners during
`connect`/`refresh` is embedded by running the manager's own
`_handle_backend_event` on the produced event, exactly where the Python
backends call their listeners (before `connect` returns).  Side effects are
made explicit: every operation returns the new manager state together with
the list of effects it performed, in order. -/

/-- Identity of one of the two backends held by a `SessionManager`. -/
inductive BackendId where
  | primary
  | fallback
deriving DecidableEq

/-- Embedding of `ConnectionBackendError` from `connections.py` (message of `str(exc)`). -/
structure ConnErr where
  message : String
deriving DecidableEq

/-- Embedding of `ConnectionProfile` from `session.py`. -/
structure ConnectionProfile where
  name : String
  dsn : Option String := none
  host : Option String := none
  port : Option Int := none
  database : Option String := none
  user : Option String := none
  metadataKey : Option String := none
  metadata : Option (List (String × List String)) := none
deriving DecidableEq

/-- Embedding of `ConnectionEvent` from `connections.py`; the timestamp is embedded as a
natural number. -/
structure ConnectionEvent where
  metadata : List (String × List String)
  schemas : List String
  status : String
  latencyMs : Int
  connectedAt : Nat
deriving DecidableEq

/-- Embedding of `SessionState` from `session.py`. -/
structure SessionState where
  profile : ConnectionProfile
  connected : Bool
  metadata : List (String × List String)
  schemas : List String
  refreshedAt : Nat
  status : String := "Connected"
  latencyMs : Option Int := none
  backendLabel : String := "Primary backend"
  usingFallback : Bool := false
  lastError : Option String := none
deriving DecidableEq

/-- Behaviour of one backend: `connect` returns the event it emits (or
fails); `refresh` computes the event it will emit to listeners (or
fails). -/
structure Backend where
  connect : ConnectionProfile → Except ConnErr ConnectionEvent
  refresh : ConnectionProfile → Except ConnErr ConnectionEvent

/-- Observable side effects of a session-manager operation, in order:
pushing metadata into the SQL intelligence service (`update_metadata`),
installing a new `SessionState` (`self._state = ...`), and notifying
subscribers (`_notify`). -/
inductive Effect where
  | updMeta (metadata : List (String × List String))
  | install (s : SessionState)
  | notify (s : SessionState)
deriving DecidableEq

/-- Embedding of `QueryExecutionError` from `query.py`. -/
structure QueryExecutionError where
  message : String
deriving DecidableEq

/-- Embedding of `QueryResult` from `query.py`; row values are embedded as strings. -/
structure QueryResult where
  columns : List String
  rows : List (List String)
  status : String
  elapsedMs : Int
  rowCount : Option Int := none
deriving DecidableEq

/-- Behaviour of a query executor (`QueryExecutor.execute`). -/
def QueryExecutor : Type :=
  ConnectionProfile → String → Except QueryExecutionError QueryResult

/-- State of a `SessionManager`: the configured profiles, the current state,
the per-profile active-backend map, the identifier-provider state of the
SQL intelligence service, the two backends, the two query executors, and
the ambient clock standing for `datetime.now()`. -/
structure SessionManager where
  profiles : List ConnectionProfile
  state : Option SessionState := none
  activeBackends : List (String × BackendId) := []
  sqlIntel : StaticMetadataProvider
  primaryBackend : Backend
  fallbackBackend : Backend
  queryExecutor : QueryExecutor
  fallbackQueryExecutor : QueryExecutor
  now : Nat := 0

/-- Errors that escape `SessionManager` operations: `ValueError` from
`_profile_by_name`, or a propagated `ConnectionBackendError`. -/
inductive SessionError where
  | profileNotFound (name : String)
  | backendError (e : ConnErr)

/-- Embedding of `SessionManager._is_fallback` (object identity against
`self._fallback_backend`). -/
def isFallback (b : BackendId) : Bool := b = BackendId.fallback

/-- Embedding of `SessionManager._label_for_backend`. -/
def labelForBackend (b : BackendId) : String :=
  if isFallback b then "Demo fallback" else "Primary backend"

/-- Embedding of `SessionManager._infer_schemas`: split table keys on the first dot
(default schema `public`), deduplicated and sorted; `("public",)` when the
metadata is empty (Python `or` on the tuple). -/
def inferSchemas (metadata : List (String × List String)) : List String :=
  let schemas := (metadata.map fun tc =>
    if (tc.1.splitOn ".").length > 1 then (tc.1.splitOn ".").headD "public"
    else "public").dedup.mergeSort (· ≤ ·)
  if schemas.isEmpty then ["public"] else schemas

/-- Python falsy-`or` on an optional tuple: `schemas or infer(...)`. -/
def pyOrList (l : Option (List String)) (d : List String) : List String :=
  match l with
  | some xs => if xs.isEmpty then d else xs
  | none => d

/-- Python falsy-`or` on an optional string: `backend_label or ...`. -/
def pyOrStr (s : Option String) (d : String) : String :=
  match s with
  | some x => if x = "" then d else x
  | none => d

/-- Embedding of `SessionManager._update_state`: pushes the metadata into the SQL
intelligence service, computes the sticky fallback error, installs a fresh
`SessionState` (always `connected=True`), and notifies. The push into the
identifier provider (`SqlIntelService.update_metadata`) is modelled from the
spec: that method is absent from `src/psqlui` (only `session.py` calls it and
the tests stub it); per the spec's identifier-provider contract it forwards
the snapshot wholesale to the provider's `update`. -/
def updateState (m : SessionManager) (profile : ConnectionProfile)
    (metadata : List (String × List String))
    (schemas? : Option (List String)) (refreshedAt? : Option Nat)
    (status : String) (latencyMs : Option Int)
    (backendLabel? : Option String) (usingFallback? : Option Bool)
    (lastError? : Option String) : SessionManager × List Effect :=
  let fallbackState :=
    usingFallback?.getD ((m.state.map SessionState.usingFallback).getD false)
  let lastError : Option String :=
    match lastError?, m.state with
    | none, some s => if fallbackState then s.lastError else none
    | le, _ => le
  let s : SessionState :=
    { profile := profile
      connected := true
      metadata := metadata
      schemas := pyOrList schemas? (inferSchemas metadata)
      refreshedAt := refreshedAt?.getD m.now
      status := status
      latencyMs := latencyMs
      backendLabel := pyOrStr backendLabel? (labelForBackend BackendId.primary)
      usingFallback := fallbackState
      lastError := lastError }
  ({ m with state := some s, sqlIntel := m.sqlIntel.update metadata },
   [Effect.updMeta metadata, Effect.install s, Effect.notify s])

/-- Embedding of `SessionManager._handle_backend_event`: drop the event unless its
profile is the current state's profile and its source backend is the
recorded active backend for that profile name. -/
def handleBackendEvent (m : SessionManager) (profile : ConnectionProfile)
    (event : ConnectionEvent) (source : BackendId) :
    SessionManager × List Effect :=
  match m.state with
  | none => (m, [])
  | some st =>
    if profile.name ≠ st.profile.name then (m, [])
    else
      if source ≠ (dictLookup m.activeBackends profile.name).getD BackendId.primary
      then (m, [])
      else
        updateState m profile event.metadata (some event.schemas)
          (some event.connectedAt) event.status (some event.latencyMs)
          (some (labelForBackend source)) (some (isFallback source))
          (if ¬ isFallback source then none else st.lastError)

/-- The install sequence shared by `connect` and `_fallback_to_demo` after a
backend's `connect(profile)` produced `event`: the backend's emission is
delivered to `_handle_backend_event` first (it happens inside
`backend.connect`, before the assignment on the next line), then the backend
is recorded as active for the profile, then `_update_state` installs the
new state. -/
def installFromBackend (m : SessionManager) (profile : ConnectionProfile)
    (event : ConnectionEvent) (b : BackendId) (errorMessage : Option String) :
    SessionManager × List Effect :=
  let r₁ := handleBackendEvent m profile event b
  let m₂ := { r₁.1 with
    activeBackends := dictInsert r₁.1.activeBackends profile.name b }
  let r₂ := updateState m₂ profile event.metadata (some event.schemas)
    (some event.connectedAt) event.status (some event.latencyMs)
    (some (labelForBackend b)) (some (isFallback b)) errorMessage
  (r₂.1, r₁.2 ++ r₂.2)

/-- Embedding of `SessionManager._fallback_to_demo`: connect the fallback backend and
install the fallback-flavoured state (`using_fallback=True`, the fallback
label, and the captured error message). -/
def fallbackToDemo (m : SessionManager) (profile : ConnectionProfile)
    (errorMessage : Option String) :
    Except SessionError (SessionManager × List Effect) :=
  match m.fallbackBackend.connect profile with
  | Except.error e => Except.error (SessionError.backendError e)
  | Except.ok event =>
    Except.ok (installFromBackend m profile event BackendId.fallback errorMessage)

/-- Embedding of `SessionManager._profile_by_name`. -/
def profileByName (profiles : List ConnectionProfile) (name : String) :
    Option ConnectionProfile :=
  profiles.find? fun p => p.name = name

/-- Embedding of `SessionManager.connect`: try the primary backend; on
`ConnectionBackendError` capture the message and connect the fallback
backend instead (re-raising its failure); record the chosen backend as
active for the profile and install the new state.  Each backend's
`connect` emits its event to the manager's listener before returning. -/
def SessionManager.connect (m : SessionManager) (name : String) :
    Except SessionError (SessionManager × List Effect) :=
  match profileByName m.profiles name with
  | none => Except.error (SessionError.profileNotFound name)
  | some profile =>
    match m.primaryBackend.connect profile with
    | Except.ok event =>
      Except.ok (installFromBackend m profile event BackendId.primary none)
    | Except.error exc =>
      match m.fallbackBackend.connect profile with
      | Except.error e => Except.error (SessionError.backendError e)
      | Except.ok event =>
        Except.ok (installFromBackend m profile event BackendId.fallback
          (some exc.message))

/-- Embedding of `SessionManager.refresh_active_profile`: no-op with no state; otherwise
refresh on the active backend (its event is delivered to
`_handle_backend_event`), falling back to the demo backend on
`ConnectionBackendError`. -/
def SessionManager.refreshActiveProfile (m : SessionManager) :
    Except SessionError (SessionManager × List Effect) :=
  match m.state with
  | none => Except.ok (m, [])
  | some st =>
    let backendId := (dictLookup m.activeBackends st.profile.name).getD BackendId.primary
    let backend :=
      if backendId = BackendId.fallback then m.fallbackBackend else m.primaryBackend
    match backend.refresh st.profile with
    | Except.ok event => Except.ok (handleBackendEvent m st.profile event backendId)
    | Except.error exc => fallbackToDemo m st.profile (some exc.message)

/-- Embedding of `SessionManager.refresh_profile`. -/
def SessionManager.refreshProfile (m : SessionManager) (name : String) :
    Except SessionError (SessionManager × List Effect) :=
  match m.state with
  | some st =>
    if st.profile.name = name then m.refreshActiveProfile
    else
      match m.connect name with
      | Except.error e => Except.error e
      | Except.ok r₁ =>
        match r₁.1.refreshActiveProfile with
        | Except.error e => Except.error e
        | Except.ok r₂ => Except.ok (r₂.1, r₁.2 ++ r₂.2)
  | none =>
    match m.connect name with
    | Except.error e => Except.error e
    | Except.ok r₁ =>
      match r₁.1.refreshActiveProfile with
      | Except.error e => Except.error e
      | Except.ok r₂ => Except.ok (r₂.1, r₁.2 ++ r₂.2)

/-- Modelled from the spec: `SessionManager.run_query` is absent from
`src/psqlui/session.py` — only its callers (`widgets/query_pad.py`) and the
tests reference it, and the tests construct the manager with
`query_executor`/`fallback_query_executor` arguments (embedded as the two
executor fields).  Per spec section 4.2 it delegates to whichever query
executor corresponds to the currently active backend for the current
profile (primary executor when Connected, fallback executor when in
Fallback), propagates `QueryExecutionError` unchanged, and performs no
state change or failover; behaviour with no session state is unspecified
and embedded as an error. -/
def SessionManager.runQuery (m : SessionManager) (sql : String) :
    SessionManager × Except QueryExecutionError QueryResult :=
  match m.state with
  | none => (m, Except.error ⟨"No active session."⟩)
  | some st =>
    if isFallback ((dictLookup m.activeBackends st.profile.name).getD BackendId.primary)
    then (m, m.fallbackQueryExecutor st.profile sql)
    else (m, m.queryExecutor st.profile sql)

/-! ## Session-layer claims -/

/-- C1: for every configured profile, if the primary backend's connect
raises `ConnectionError` and the fallback backend's connect succeeds,
`connect(name)` does not raise: it installs and returns a `SessionState`
with `using_fallback=true`, `backend_label="Demo fallback"`, and
`last_error` holding exactly the primary failure's message. -/
theorem claim_C1_connect_falls_back (m : SessionManager) (n : String)
    (profile : ConnectionProfile) (e : ConnErr) (event : ConnectionEvent)
    (hp : profileByName m.profiles n = some profile)
    (hprim : m.primaryBackend.connect profile = Except.error e)
    (hfb : m.fallbackBackend.connect profile = Except.ok event) :
    ∃ m₂ fx s, m.connect n = Except.ok (m₂, fx) ∧ m₂.state = some s ∧
      s.usingFallback = true ∧ s.backendLabel = "Demo fallback" ∧
      s.lastError = some e.message := by
  unfold SessionManager.connect
  rw [hp]
  dsimp only
  rw [hprim]
  dsimp only
  rw [hfb]
  exact ⟨_, _, _, rfl, rfl, rfl, rfl, rfl⟩

/-- The `Local` demo profile used by concrete scenarios. -/
def profileLocal : ConnectionProfile := { name := "Local", metadataKey := some "demo" }

/-- A demo-backend connection event. -/
def eventDemo : ConnectionEvent :=
  { metadata := [("public.accounts", ["id"])], schemas := ["public"],
    status := "Connected", latencyMs := 25, connectedAt := 1 }

/-- A primary-backend connection event. -/
def eventPrimary : ConnectionEvent :=
  { metadata := [("public.accounts", ["id", "email"])], schemas := ["public"],
    status := "Connected", latencyMs := 12, connectedAt := 2 }

/-- A backend whose connect and refresh always fail. -/
def failingBackend : Backend :=
  { connect := fun _ => Except.error ⟨"boom"⟩
    refresh := fun _ => Except.error ⟨"boom"⟩ }

/-- A demo backend that always succeeds. -/
def demoBackend : Backend :=
  { connect := fun _ => Except.ok eventDemo
    refresh := fun _ => Except.ok eventDemo }

/-- A primary backend that connects but fails to refresh. -/
def flakyPrimary : Backend :=
  { connect := fun _ => Except.ok eventPrimary
    refresh := fun _ => Except.error ⟨"boom"⟩ }

/-- A stub query executor with a fixed result status. -/
def stubExecutor (status : String) : QueryExecutor :=
  fun _ _ => Except.ok
    { columns := ["id"], rows := [["1"]], status := status, elapsedMs := 1,
      rowCount := some 1 }

/-- Manager whose primary always fails and whose fallback succeeds. -/
def managerC1 : SessionManager :=
  { profiles := [profileLocal], sqlIntel := emptyProvider,
    primaryBackend := failingBackend, fallbackBackend := demoBackend,
    queryExecutor := stubExecutor "OK",
    fallbackQueryExecutor := stubExecutor "Fallback demo" }

/-- Witness instantiating C1 on a concrete always-failing primary. -/
theorem claim_C1_witness :
    profileByName managerC1.profiles "Local" = some profileLocal ∧
    managerC1.primaryBackend.connect profileLocal = Except.error ⟨"boom"⟩ ∧
    managerC1.fallbackBackend.connect profileLocal = Except.ok eventDemo ∧
    (∃ m₂ fx s, managerC1.connect "Local" = Except.ok (m₂, fx) ∧
      m₂.state = some s ∧ s.usingFallback = true ∧
      s.backendLabel = "Demo fallback" ∧
      s.lastError = some (ConnErr.mk "boom").message) :=
  ⟨rfl, rfl, rfl,
   claim_C1_connect_falls_back managerC1 "Local" profileLocal ⟨"boom"⟩ eventDemo
     rfl rfl rfl⟩

/-- C3: a backend event whose source is not the recorded active backend for
its profile name, or whose profile is not the current state's profile, is
dropped: the manager (every field) is unchanged and no effect — in
particular no subscriber notification — is produced. -/
theorem claim_C3_stale_events_dropped (m : SessionManager) (st : SessionState)
    (profile : ConnectionProfile) (event : ConnectionEvent) (source : BackendId)
    (hs : m.state = some st)
    (h : profile.name ≠ st.profile.name ∨
      source ≠ (dictLookup m.activeBackends profile.name).getD BackendId.primary) :
    handleBackendEvent m profile event source = (m, []) := by
  unfold handleBackendEvent
  rw [hs]
  dsimp only
  rcases h with h | h
  · rw [if_pos h]
  · by_cases hp : profile.name ≠ st.profile.name
    · rw [if_pos hp]
    · rw [if_neg hp, if_pos h]

/-- A state as installed after a fallback transition for `Local`. -/
def stateFallbackLocal : SessionState :=
  { profile := profileLocal, connected := true,
    metadata := eventDemo.metadata, schemas := eventDemo.schemas,
    refreshedAt := 1, status := "Connected", latencyMs := some 25,
    backendLabel := "Demo fallback", usingFallback := true,
    lastError := some "boom" }

/-- Manager for profile `Local` whose recorded active backend is the
fallback. -/
def managerC3 : SessionManager :=
  { profiles := [profileLocal], state := some stateFallbackLocal,
    activeBackends := [("Local", BackendId.fallback)],
    sqlIntel := emptyProvider,
    primaryBackend := flakyPrimary, fallbackBackend := demoBackend,
    queryExecutor := stubExecutor "OK",
    fallbackQueryExecutor := stubExecutor "Fallback demo" }

/-- Witness instantiating C3: a primary event while the fallback is the
recorded active backend is dropped. -/
theorem claim_C3_witness :
    managerC3.state = some stateFallbackLocal ∧
    (BackendId.primary ≠
      (dictLookup managerC3.activeBackends profileLocal.name).getD
        BackendId.primary) ∧
    handleBackendEvent managerC3 profileLocal eventPrimary BackendId.primary =
      (managerC3, []) :=
  ⟨rfl, by decide,
   claim_C3_stale_events_dropped managerC3 stateFallbackLocal profileLocal
     eventPrimary BackendId.primary rfl (Or.inr (by decide))⟩

/-! ## C2: recovery after a fallback transition -/

/-- Manager with a flaky primary (connects, then fails to refresh). -/
def managerC2 : SessionManager :=
  { profiles := [profileLocal], sqlIntel := emptyProvider,
    primaryBackend := flakyPrimary, fallbackBackend := demoBackend,
    queryExecutor := stubExecutor "OK",
    fallbackQueryExecutor := stubExecutor "Fallback demo" }

/-- State of `managerC2` after a successful `connect("Local")` on the primary. -/
def managerC2a : SessionManager :=
  match managerC2.connect "Local" with
  | Except.ok r => r.1
  | Except.error _ => managerC2

/-- State of `managerC2a` after `refresh_active_profile()` failed over to the
fallback backend. -/
def managerC2b : SessionManager :=
  match managerC2a.refreshActiveProfile with
  | Except.ok r => r.1
  | Except.error _ => managerC2a

/-- C2 counterexample: after `refresh_active_profile()` has failed over
(`using_fallback=true`, `last_error="boom"`), a subsequently delivered
successful event from the primary backend is NOT applied: the recorded
active backend for `Local` is now the fallback, so `_handle_backend_event`
drops the event and the state keeps `using_fallback=true` and the old
`last_error` — contradicting the claim that it is applied and yields
`using_fallback=false` with `last_error` cleared. -/
theorem claim_C2_counterexample :
    (managerC2a.state.map SessionState.usingFallback = some false) ∧
    (managerC2b.state.map SessionState.usingFallback = some true) ∧
    (managerC2b.state.map SessionState.lastError = some (some "boom")) ∧
    handleBackendEvent managerC2b profileLocal eventPrimary BackendId.primary =
      (managerC2b, []) ∧
    ((handleBackendEvent managerC2b profileLocal eventPrimary
        BackendId.primary).1.state.map SessionState.usingFallback ≠ some false) :=
  ⟨by decide, by decide, by decide, rfl, by decide⟩

/-- C2 amended: after a failover, a delivered successful primary event is
dropped (state unchanged) while the fallback is still the recorded active
backend for the profile; a primary event is applied — producing a state
with `using_fallback=false` and `last_error` cleared to null — exactly when
the primary backend is again the recorded active backend for that profile
(e.g. after a successful re-`connect`). -/
theorem claim_C2_amended (m : SessionManager) (st : SessionState)
    (profile : ConnectionProfile) (event : ConnectionEvent)
    (hs : m.state = some st) (hname : profile.name = st.profile.name) :
    ((dictLookup m.activeBackends profile.name).getD BackendId.primary =
        BackendId.fallback →
      handleBackendEvent m profile event BackendId.primary = (m, [])) ∧
    ((dictLookup m.activeBackends profile.name).getD BackendId.primary =
        BackendId.primary →
      ∃ s, (handleBackendEvent m profile event BackendId.primary).1.state =
          some s ∧ s.usingFallback = false ∧ s.lastError = none) := by
  constructor
  · intro hact
    unfold handleBackendEvent
    rw [hs]
    dsimp only
    rw [if_neg (by simp [hname]), if_pos (by rw [hact]; decide)]
  · intro hact
    unfold handleBackendEvent
    rw [hs]
    dsimp only
    rw [if_neg (by simp [hname]), if_neg (by rw [hact]; simp)]
    unfold updateState
    rw [hs]
    exact ⟨_, rfl, rfl, rfl⟩

/-- State of `managerC2b` after the primary backend recovered via a successful
re-`connect("Local")`. -/
def managerC2c : SessionManager :=
  match managerC2b.connect "Local" with
  | Except.ok r => r.1
  | Except.error _ => managerC2b

/-- The session state of `managerC2c`. -/
def stateC2c : SessionState :=
  match managerC2c.state with
  | some s => s
  | none => stateFallbackLocal

/-- Witness instantiating the amended C2 statement on the concrete
recovered manager. -/
theorem claim_C2_amended_witness :
    managerC2c.state = some stateC2c ∧
    profileLocal.name = stateC2c.profile.name ∧
    (((dictLookup managerC2c.activeBackends profileLocal.name).getD
          BackendId.primary = BackendId.fallback →
        handleBackendEvent managerC2c profileLocal eventPrimary
          BackendId.primary = (managerC2c, [])) ∧
      ((dictLookup managerC2c.activeBackends profileLocal.name).getD
          BackendId.primary = BackendId.primary →
        ∃ s, (handleBackendEvent managerC2c profileLocal eventPrimary
            BackendId.primary).1.state = some s ∧
          s.usingFallback = false ∧ s.lastError = none)) :=
  ⟨rfl, by decide,
   claim_C2_amended managerC2c stateC2c profileLocal eventPrimary rfl (by decide)⟩

/-- C4: `run_query(sql)` delegates to the query executor corresponding to
the currently active backend for the current profile (primary executor when
the primary is active, fallback executor when the fallback is active),
propagates `QueryExecutionError` to the caller unchanged, and never changes
the manager — in particular it never triggers a backend failover. -/
theorem claim_C4_run_query (m : SessionManager) (st : SessionState) (sql : String)
    (hs : m.state = some st) :
    (m.runQuery sql).1 = m ∧
    ((dictLookup m.activeBackends st.profile.name).getD BackendId.primary =
        BackendId.primary →
      m.runQuery sql = (m, m.queryExecutor st.profile sql)) ∧
    ((dictLookup m.activeBackends st.profile.name).getD BackendId.primary =
        BackendId.fallback →
      m.runQuery sql = (m, m.fallbackQueryExecutor st.profile sql)) ∧
    (∀ e, (dictLookup m.activeBackends st.profile.name).getD BackendId.primary =
        BackendId.primary →
      m.queryExecutor st.profile sql = Except.error e →
      (m.runQuery sql).2 = Except.error e) := by
  unfold SessionManager.runQuery
  rw [hs]
  dsimp only
  refine ⟨?_, ?_, ?_, ?_⟩
  · split
    · rfl
    · rfl
  · intro hact
    rw [hact]
    rfl
  · intro hact
    rw [hact]
    rfl
  · intro e hact he
    rw [hact]
    exact he

/-- Witness instantiating C4 on the concrete fallback-active manager. -/
theorem claim_C4_witness :
    managerC3.state = some stateFallbackLocal ∧
    ((managerC3.runQuery "SELECT 1").1 = managerC3 ∧
     ((dictLookup managerC3.activeBackends stateFallbackLocal.profile.name).getD
          BackendId.primary = BackendId.primary →
       managerC3.runQuery "SELECT 1" =
         (managerC3, managerC3.queryExecutor stateFallbackLocal.profile "SELECT 1")) ∧
     ((dictLookup managerC3.activeBackends stateFallbackLocal.profile.name).getD
          BackendId.primary = BackendId.fallback →
       managerC3.runQuery "SELECT 1" =
         (managerC3,
          managerC3.fallbackQueryExecutor stateFallbackLocal.profile "SELECT 1")) ∧
     (∀ e, (dictLookup managerC3.activeBackends
          stateFallbackLocal.profile.name).getD BackendId.primary =
            BackendId.primary →
       managerC3.queryExecutor stateFallbackLocal.profile "SELECT 1" =
         Except.error e →
       (managerC3.runQuery "SELECT 1").2 = Except.error e)) :=
  ⟨rfl, claim_C4_run_query managerC3 stateFallbackLocal "SELECT 1" rfl⟩

/-! ## C5 and C10: effect traces of state-installing operations -/

/-- Every `install` effect in the trace carries `connected = true`. -/
def installsConnected (fx : List Effect) : Bool :=
  fx.all fun e =>
    match e with
    | Effect.install s => s.connected
    | _ => true

/-- The trace is a sequence of `update_metadata / install / notify` blocks:
each installed state is immediately preceded by the metadata push of its own
metadata and immediately followed by its notification. -/
def goodTrace : List Effect → Bool
  | [] => true
  | Effect.updMeta mm :: Effect.install s :: Effect.notify s₂ :: rest =>
      (s.metadata == mm && s₂ == s) && goodTrace rest
  | _ => false

theorem goodTrace_append (a b : List Effect) (ha : goodTrace a = true)
    (hb : goodTrace b = true) : goodTrace (a ++ b) = true := by
  induction a using goodTrace.induct with
  | case1 => exact hb
  | case2 mm s s₂ rest ih =>
    rw [goodTrace] at ha
    simp only [Bool.and_eq_true] at ha
    rw [List.cons_append, List.cons_append, List.cons_append, goodTrace]
    simp only [Bool.and_eq_true]
    exact ⟨ha.1, ih ha.2⟩
  | case3 x h1 h2 =>
    rw [goodTrace] at ha
    · exact absurd ha (by simp)
    · exact h1
    · exact h2

theorem trace_ok_append (a b : List Effect)
    (ha : goodTrace a = true ∧ installsConnected a = true)
    (hb : goodTrace b = true ∧ installsConnected b = true) :
    goodTrace (a ++ b) = true ∧ installsConnected (a ++ b) = true := by
  refine ⟨goodTrace_append a b ha.1 hb.1, ?_⟩
  unfold installsConnected at ha hb ⊢
  rw [List.all_append]
  exact (Bool.and_eq_true _ _).mpr ⟨ha.2, hb.2⟩

theorem updateState_trace_ok (m : SessionManager) (profile : ConnectionProfile)
    (metadata : List (String × List String)) (schemas? : Option (List String))
    (refreshedAt? : Option Nat) (status : String) (latencyMs : Option Int)
    (backendLabel? : Option String) (usingFallback? : Option Bool)
    (lastError? : Option String) :
    goodTrace (updateState m profile metadata schemas? refreshedAt? status
      latencyMs backendLabel? usingFallback? lastError?).2 = true ∧
    installsConnected (updateState m profile metadata schemas? refreshedAt?
      status latencyMs backendLabel? usingFallback? lastError?).2 = true := by
  constructor
  · simp [updateState, goodTrace]
  · simp [updateState, installsConnected]

theorem handleBackendEvent_trace_ok (m : SessionManager)
    (profile : ConnectionProfile) (event : ConnectionEvent) (source : BackendId) :
    goodTrace (handleBackendEvent m profile event source).2 = true ∧
    installsConnected (handleBackendEvent m profile event source).2 = true := by
  unfold handleBackendEvent
  cases m.state with
  | none => exact ⟨rfl, rfl⟩
  | some st =>
    dsimp only
    split
    · exact ⟨rfl, rfl⟩
    · split
      · exact ⟨rfl, rfl⟩
      · exact updateState_trace_ok ..

theorem installFromBackend_trace_ok (m : SessionManager)
    (profile : ConnectionProfile) (event : ConnectionEvent) (b : BackendId)
    (errorMessage : Option String) :
    goodTrace (installFromBackend m profile event b errorMessage).2 = true ∧
    installsConnected (installFromBackend m profile event b errorMessage).2
      = true := by
  exact trace_ok_append _ _ (handleBackendEvent_trace_ok m profile event b)
    (updateState_trace_ok ..)

theorem connect_trace_ok (m : SessionManager) (n : String)
    (r : SessionManager × List Effect) (h : m.connect n = Except.ok r) :
    goodTrace r.2 = true ∧ installsConnected r.2 = true := by
  unfold SessionManager.connect at h
  cases hp : profileByName m.profiles n with
  | none => rw [hp] at h; exact absurd h (by simp)
  | some profile =>
    rw [hp] at h
    dsimp only at h
    cases hc : m.primaryBackend.connect profile with
    | ok event =>
      rw [hc] at h
      dsimp only at h
      injection h with h₂
      rw [← h₂]
      exact installFromBackend_trace_ok ..
    | error exc =>
      rw [hc] at h
      dsimp only at h
      cases hf : m.fallbackBackend.connect profile with
      | error e => rw [hf] at h; exact absurd h (by simp)
      | ok event =>
        rw [hf] at h
        dsimp only at h
        injection h with h₂
        rw [← h₂]
        exact installFromBackend_trace_ok ..

theorem fallbackToDemo_trace_ok (m : SessionManager)
    (profile : ConnectionProfile) (errorMessage : Option String)
    (r : SessionManager × List Effect)
    (h : fallbackToDemo m profile errorMessage = Except.ok r) :
    goodTrace r.2 = true ∧ installsConnected r.2 = true := by
  unfold fallbackToDemo at h
  cases hf : m.fallbackBackend.connect profile with
  | error e => rw [hf] at h; exact absurd h (by simp)
  | ok event =>
    rw [hf] at h
    dsimp only at h
    injection h with h₂
    rw [← h₂]
    exact installFromBackend_trace_ok ..

theorem refreshActiveProfile_trace_ok (m : SessionManager)
    (r : SessionManager × List Effect)
    (h : m.refreshActiveProfile = Except.ok r) :
    goodTrace r.2 = true ∧ installsConnected r.2 = true := by
  unfold SessionManager.refreshActiveProfile at h
  cases hm : m.state with
  | none =>
    rw [hm] at h
    dsimp only at h
    injection h with h₂
    rw [← h₂]
    exact ⟨rfl, rfl⟩
  | some st =>
    rw [hm] at h
    dsimp only at h
    split at h
    · injection h with h₂
      rw [← h₂]
      exact handleBackendEvent_trace_ok ..
    · exact fallbackToDemo_trace_ok _ _ _ _ h

theorem refreshProfile_trace_ok (m : SessionManager) (n : String)
    (r : SessionManager × List Effect)
    (h : m.refreshProfile n = Except.ok r) :
    goodTrace r.2 = true ∧ installsConnected r.2 = true := by
  unfold SessionManager.refreshProfile at h
  cases hm : m.state with
  | some st =>
    rw [hm] at h
    dsimp only at h
    by_cases hn : st.profile.name = n
    · rw [if_pos hn] at h
      exact refreshActiveProfile_trace_ok _ _ h
    · rw [if_neg hn] at h
      cases hc : m.connect n with
      | error e => rw [hc] at h; exact absurd h (by simp)
      | ok r₁ =>
        rw [hc] at h
        dsimp only at h
        cases hr : r₁.1.refreshActiveProfile with
        | error e => rw [hr] at h; exact absurd h (by simp)
        | ok r₂ =>
          rw [hr] at h
          dsimp only at h
          injection h with h₂
          rw [← h₂]
          exact trace_ok_append _ _ (connect_trace_ok _ _ _ hc)
            (refreshActiveProfile_trace_ok _ _ hr)
  | none =>
    rw [hm] at h
    dsimp only at h
    cases hc : m.connect n with
    | error e => rw [hc] at h; exact absurd h (by simp)
    | ok r₁ =>
      rw [hc] at h
      dsimp only at h
      cases hr : r₁.1.refreshActiveProfile with
      | error e => rw [hr] at h; exact absurd h (by simp)
      | ok r₂ =>
        rw [hr] at h
        dsimp only at h
        injection h with h₂
        rw [← h₂]
        exact trace_ok_append _ _ (connect_trace_ok _ _ _ hc)
          (refreshActiveProfile_trace_ok _ _ hr)

/-- C5: every state-installing operation of the session manager (connect,
fallback transition, refresh, applied backend event) produces its effects in
`update_metadata` / install / notify order — the metadata is pushed into the
SQL intelligence service before the new `SessionState` (carrying that same
metadata) is installed and before subscribers are notified — and the
identifier provider's two lookup indices are rebuilt wholesale on each
`update` call: the result never depends on the provider's previous state. -/
theorem claim_C5_metadata_push_order :
    (∀ (m : SessionManager) (n : String) (r : SessionManager × List Effect),
      m.connect n = Except.ok r → goodTrace r.2 = true) ∧
    (∀ (m : SessionManager) (r : SessionManager × List Effect),
      m.refreshActiveProfile = Except.ok r → goodTrace r.2 = true) ∧
    (∀ (m : SessionManager) (n : String) (r : SessionManager × List Effect),
      m.refreshProfile n = Except.ok r → goodTrace r.2 = true) ∧
    (∀ (m : SessionManager) (profile : ConnectionProfile)
        (event : ConnectionEvent) (source : BackendId),
      goodTrace (handleBackendEvent m profile event source).2 = true) ∧
    (∀ (p q : StaticMetadataProvider) (T : List (String × List String)),
      p.update T = q.update T) :=
  ⟨fun m n r h => (connect_trace_ok m n r h).1,
   fun m r h => (refreshActiveProfile_trace_ok m r h).1,
   fun m n r h => (refreshProfile_trace_ok m n r h).1,
   fun m profile event source => (handleBackendEvent_trace_ok m profile event source).1,
   fun _ _ _ => rfl⟩

/-- The result of `managerC1.connect "Local"`. -/
def connectC1r : SessionManager × List Effect :=
  match managerC1.connect "Local" with
  | Except.ok r => r
  | Except.error _ => (managerC1, [])

/-- Witness instantiating C5's connect conjunct on a concrete run. -/
theorem claim_C5_witness :
    managerC1.connect "Local" = Except.ok connectC1r ∧
    goodTrace connectC1r.2 = true :=
  ⟨rfl, claim_C5_metadata_push_order.1 managerC1 "Local" connectC1r rfl⟩

/-- C10: every `SessionState` ever installed by the session manager has
`connected = true` — including the states installed after a primary failure
while on the fallback backend; `_update_state` can only install
`connected = true` states, so a disconnected condition is representable only
by the absence of a state. -/
theorem claim_C10_connected_invariant :
    (∀ (m : SessionManager) (n : String) (r : SessionManager × List Effect),
      m.connect n = Except.ok r → installsConnected r.2 = true) ∧
    (∀ (m : SessionManager) (r : SessionManager × List Effect),
      m.refreshActiveProfile = Except.ok r → installsConnected r.2 = true) ∧
    (∀ (m : SessionManager) (n : String) (r : SessionManager × List Effect),
      m.refreshProfile n = Except.ok r → installsConnected r.2 = true) ∧
    (∀ (m : SessionManager) (profile : ConnectionProfile)
        (event : ConnectionEvent) (source : BackendId),
      installsConnected (handleBackendEvent m profile event source).2 = true) ∧
    (∀ (m : SessionManager) (profile : ConnectionProfile)
        (metadata : List (String × List String))
        (schemas? : Option (List String)) (refreshedAt? : Option Nat)
        (status : String) (latencyMs : Option Int)
        (backendLabel? : Option String) (usingFallback? : Option Bool)
        (lastError? : Option String),
      ∃ s, (updateState m profile metadata schemas? refreshedAt? status
          latencyMs backendLabel? usingFallback? lastError?).1.state = some s ∧
        s.connected = true) :=
  ⟨fun m n r h => (connect_trace_ok m n r h).2,
   fun m r h => (refreshActiveProfile_trace_ok m r h).2,
   fun m n r h => (refreshProfile_trace_ok m n r h).2,
   fun m profile event source => (handleBackendEvent_trace_ok m profile event source).2,
   fun _ _ _ _ _ _ _ _ _ _ => ⟨_, rfl, rfl⟩⟩

/-- The result of `managerC2.connect "Local"`. -/
def connectC2r : SessionManager × List Effect :=
  match managerC2.connect "Local" with
  | Except.ok r => r
  | Except.error _ => (managerC2, [])

/-- Witness instantiating C10's connect conjunct on a concrete run. -/
theorem claim_C10_witness :
    managerC2.connect "Local" = Except.ok connectC2r ∧
    installsConnected connectC2r.2 = true :=
  ⟨rfl, claim_C10_connected_invariant.1 managerC2 "Local" connectC2r rfl⟩
